import Mathlib

/-!
Verification development for the UX-Tradeoffs audio-quality backend.

The definitions below are shallow embeddings of the Python sources:
  * `Peaq`  models src/backend/src/peaq/peaq.py
  * `Pesq`  models src/backend/src/pesq_module/pesq_score.py
  * `Codec` models src/backend/src/webrtc/codec_call.py

Machine floating point is modelled by `ℚ` where the computations are exact
rational operations (clipping, scaling, integer casts) and by `ℝ` where the
source uses `sqrt`/`log10`.  NumPy `astype(np.int16)` truncates toward zero,
which `truncQ` reproduces.  External collaborators (scipy transforms, the
ffmpeg subprocess) are modelled through their documented input/output
contracts, as noted at each definition.
-/

/-- Truncation toward zero, the rounding mode of NumPy `astype(np.int16)`
and of the Python `int()` conversion applied to a float. -/
def truncQ (x : ℚ) : ℤ := if 0 ≤ x then ⌊x⌋ else ⌈x⌉

namespace Peaq

/-- Model of `np.clip(samples, -1.0, 1.0)` from `_write_wav_bytes`
(peaq.py line 52). -/
def clip_unit (x : ℚ) : ℚ := max (-1) (min x 1)

/-- Model of `_write_wav_bytes` (peaq.py lines 49-62) restricted to the
per-sample integer data actually written: clip to [-1, 1], scale by 32767,
cast to int16 (truncation toward zero; after clipping the scaled value lies
in [-32767, 32767], so the cast cannot wrap). The WAV container bytes are
not modelled: the wave module stores the int16 frames verbatim. -/
def write_wav_bytes (b : List ℚ) : List ℤ :=
  b.map (fun x => truncQ (clip_unit x * 32767))

/-- Model of `_load_wav` (peaq.py lines 17-46) on a 16-bit mono PCM WAV:
each stored int16 frame is divided by 32768.0. -/
def load_wav16 (ks : List ℤ) : List ℚ :=
  ks.map (fun k => (k : ℚ) / 32768)

/-- Window size of `spectral_subtract` (peaq.py line 89): `nperseg = 1024`. -/
def nperseg_ss : ℕ := 1024

/-- Hop of `spectral_subtract` (peaq.py line 90): `hop = nperseg // 4`. -/
def hop_ss : ℕ := nperseg_ss / 4

/-- Zero padding appended by `scipy.signal.stft(..., padded=True)` after the
boundary extension, so that the extended signal splits into whole hops:
the extension adds `2*(nperseg//2)` samples, leaving `n` samples beyond the
first window, which are padded up to the next multiple of the hop. -/
def stft_pad_ss (n : ℕ) : ℕ := (hop_ss - n % hop_ss) % hop_ss

/-- Number of STFT frames produced by `scipy.signal.stft` for a length-`n`
signal with window 1024, hop 256, `boundary=zeros` (adds `nperseg//2`
zeros on each side) and `padded=True`. -/
def stft_frames_ss (n : ℕ) : ℕ := (n + stft_pad_ss n) / hop_ss + 1

/-- Length of the signal returned by `scipy.signal.istft` for `k` frames
with window 1024, hop 256 and `boundary=True`: overlap-add reconstruction
of length `nperseg + (k-1)*hop`, with the `nperseg//2` boundary samples
removed from each end. -/
def istft_len_ss (k : ℕ) : ℕ := nperseg_ss + (k - 1) * hop_ss - 2 * (nperseg_ss / 2)

/-- Sample values of the reconstruction are not modelled (they pass through
the scipy transform pair and the Wiener-style gain, which do not affect the
sample count); only the documented output length of the stft/istft round
trip is. -/
def istft_model (n : ℕ) : List ℚ :=
  List.replicate (istft_len_ss (stft_frames_ss n)) 0

/-- Model of the final normalization of `spectral_subtract` (peaq.py lines
124-127): if the peak absolute amplitude exceeds 0.95, rescale so the peak
becomes 0.95. -/
def normalize_peak (l : List ℚ) : List ℚ :=
  let peak := (l.map (fun x => |x|)).foldr max 0
  if 19/20 < peak then l.map (fun x => x * ((19/20) / peak)) else l

/-- Model of `spectral_subtract` (peaq.py lines 65-129): the call returns a
cleaned signal only when both the degraded signal and the noise recording
are at least one full window (1024 samples) long; every shorter input makes
one of the scipy/NumPy steps raise a `ValueError` before the function can
return.  Traced failure modes (scipy shrinks the window to the input length
when it is shorter than `nperseg`, while `noverlap=768` and the istft
window stay fixed):
  * signal of 1 to 768 samples: `stft` raises "noverlap must be less than
    nperseg" (the shrunken window is at most the fixed 768 overlap);
  * noise of 769 to 1023 samples with degraded at least 1024: the noise
    spectrum has fewer than 513 frequency bins, and the division
    `deg_power / (2 * noise_power + 1e-10)` raises a broadcast ValueError;
  * degraded of 769 to 1023 samples: the broadcast against a 513-bin noise
    spectrum, or otherwise `istft` (called with the fixed `nperseg=1024`
    against a spectrum with fewer bins), raises a ValueError;
  * empty noise: `np.mean(..., axis=1)` on the one-dimensional empty
    spectrum raises an AxisError (a ValueError subclass);
  * empty degraded: the reconstruction collapses to an empty array and
    `np.max(np.abs(cleaned))` raises "zero-size array to reduction".
On the success branch the output length is the stft/istft round-trip
length truncated by `cleaned[:len(degraded)]` and then peak-normalized;
the gain values themselves are not modelled (see `istft_model`). -/
def spectral_subtract (degraded noise : List ℚ) : Except String (List ℚ) :=
  if degraded.length < nperseg_ss ∨ noise.length < nperseg_ss then
    Except.error "ValueError"
  else
    Except.ok (normalize_peak ((istft_model degraded.length).take degraded.length))

end Peaq

namespace Pesq

/-- Model of `_float_to_int16` (pesq_score.py lines 61-63 and codec_call.py
lines 79-80): `np.clip(s * 32768.0, -32768, 32767).astype(np.int16)` —
scale first, then clamp to the int16 range, then cast (truncation toward
zero; after the clamp the value is in [-32768, 32767], so no wraparound). -/
def float_to_int16 (s : ℚ) : ℤ := truncQ (max (-32768) (min (s * 32768) 32767))

/-- Model of `num_samples = int(len(samples) * target_sr / orig_sr)` from
`_resample_to` (pesq_score.py line 57) and the identical expression in
`compute_peaq_odg` (peaq.py line 167).  Python `int()` truncates; the value
is nonnegative, so truncation is the floor. -/
def resample_num (n orig_sr target_sr : ℕ) : ℕ :=
  (⌊((n * target_sr : ℕ) : ℚ) / (orig_sr : ℚ)⌋).toNat

/-- The sample count the spec sentence asks for instead: the original count
times `targetRate/originalRate` rounded to the nearest integer.  Stated from
the spec words for comparison with `resample_num`, which is taken from the
source. -/
def resample_num_spec (n orig_sr target_sr : ℕ) : ℤ :=
  round (((n * target_sr : ℕ) : ℚ) / (orig_sr : ℚ))

/-- Model of `scipy.signal.resample(samples, num)` (external collaborator):
only its documented output contract is used — the returned signal has
exactly `num` samples.  The FFT interpolation values are not modelled; no
claim depends on them. -/
def scipy_resample (samples : List ℚ) (num : ℕ) : List ℚ :=
  (samples ++ List.replicate num 0).take num

/-- Model of `_resample_to` (pesq_score.py lines 53-58): identity when the
rates match, otherwise scipy resampling to `resample_num` samples. -/
def resample_to (samples : List ℚ) (orig_sr target_sr : ℕ) : List ℚ :=
  if orig_sr = target_sr then samples
  else scipy_resample samples (resample_num samples.length orig_sr target_sr)

end Pesq

namespace Codec

/-- The temporary files created by `encode_decode_opus` and
`encode_decode_g711` (codec_call.py lines 88-89 and 124-125).  The real code
draws unique names from `tempfile.NamedTemporaryFile`; one symbolic name per
role suffices because each call owns its own files. -/
inductive TmpFile
  | opusCompressed
  | mulawCompressed
  | decodedWav
deriving DecidableEq

/-- The Python exceptions `subprocess.run` can raise under the arguments
used here (`capture_output=True, timeout=30`, no `check=True`): a timeout
raises `subprocess.TimeoutExpired`, a missing executable raises
`FileNotFoundError`.  A non-zero exit status raises nothing. -/
inductive PyExc
  | timeoutExpired
  | fileNotFoundError
deriving DecidableEq

/-- Outcome of one `subprocess.run` invocation of ffmpeg. -/
inductive PyRun
  | completed (returncode : ℤ)
  | raises (e : PyExc)

/-- The exception, if any, that a `subprocess.run` outcome raises in the
caller. -/
def raisedException : PyRun → Option PyExc
  | PyRun.completed _ => none
  | PyRun.raises e => some e

/-- The `timeout=` argument passed to every ffmpeg invocation
(codec_call.py lines 102, 111, 136, 145). -/
def subprocess_timeout : ℕ := 30

/-- Model of `encode_decode_opus` (codec_call.py lines 83-116) as a state
transformer on the list of existing temporary files.  Two temp files are
created eagerly; the two ffmpeg stages run without `check=True` and without
any try/finally; on the success path the intermediate compressed file is
unlinked and the decoded WAV path returned.  An exception propagates
immediately, carrying the file state at that moment. -/
def encode_decode_opus (enc dec : PyRun) (fs : List TmpFile) :
    Except (List TmpFile × PyExc) (List TmpFile × TmpFile) :=
  let fs2 := TmpFile.decodedWav :: TmpFile.opusCompressed :: fs
  match raisedException enc with
  | some e => Except.error (fs2, e)
  | none =>
    match raisedException dec with
    | some e => Except.error (fs2, e)
    | none => Except.ok (fs2.erase TmpFile.opusCompressed, TmpFile.decodedWav)

/-- Model of `encode_decode_g711` (codec_call.py lines 119-150), identical
control flow with the μ-law intermediate file. -/
def encode_decode_g711 (enc dec : PyRun) (fs : List TmpFile) :
    Except (List TmpFile × PyExc) (List TmpFile × TmpFile) :=
  let fs2 := TmpFile.decodedWav :: TmpFile.mulawCompressed :: fs
  match raisedException enc with
  | some e => Except.error (fs2, e)
  | none =>
    match raisedException dec with
    | some e => Except.error (fs2, e)
    | none => Except.ok (fs2.erase TmpFile.mulawCompressed, TmpFile.decodedWav)

/-- The Python exception that escapes a pipeline call, if any. -/
def errName : Except (List TmpFile × PyExc) (List TmpFile × TmpFile) → Option PyExc
  | Except.error p => some p.2
  | Except.ok _ => none

/-- Model of the Opus branch of `make_webrtc_call` (codec_call.py lines
187-217) at the level of the temporary-file state: the whole branch sits in
a try/except, so an exception from `encode_decode_opus` or from the PESQ
scoring (`pesqRaises`) is caught and recorded in the result instead of
propagating — but `wb_path.unlink` (line 215) is the last statement of the
try block, so it only runs when nothing raised.  Returns the temporary
files that exist after the branch. -/
def make_webrtc_call_wb (enc dec : PyRun) (pesqRaises : Bool)
    (fs : List TmpFile) : List TmpFile :=
  match encode_decode_opus enc dec fs with
  | Except.error (fs2, _) => fs2
  | Except.ok (fs2, wav) =>
      if pesqRaises then fs2 else fs2.erase wav

end Codec

namespace Peaq

/-- The additive floor `eps = 1e-10` of `compute_peaq_odg` (peaq.py
line 214). -/
noncomputable def eps : ℝ := 1 / 10 ^ 10

/-- Base-10 logarithm, `np.log10`. -/
noncomputable def log10 (x : ℝ) : ℝ := Real.logb 10 x

/-- One addend of the Log-Spectral Distance (peaq.py line 215): the squared
difference of the floored log magnitudes at one time-frequency bin. -/
noncomputable def sqLogDiff (p : ℝ × ℝ) : ℝ :=
  (log10 (p.1 + eps) - log10 (p.2 + eps)) ^ 2

/-- Model of `lsd = np.mean((np.log10(mag_ref + eps) - np.log10(mag_deg +
eps)) ** 2)` (peaq.py lines 214-215).  The two magnitude matrices have the
same shape, so `np.mean` over them is the mean over the flattened pairing,
modelled by zipping the flattened magnitude lists. -/
noncomputable def lsdVal (magRef magDeg : List ℝ) : ℝ :=
  (((magRef.zip magDeg).map sqLogDiff).sum) /
    ((((magRef.zip magDeg).map sqLogDiff).length : ℕ) : ℝ)

/-- Model of `np.clip(x, lo, hi)` on scalars. -/
noncomputable def np_clip (x lo hi : ℝ) : ℝ := max lo (min x hi)

/-- Model of peaq.py lines 218-219: `odg = -1.5 * np.sqrt(lsd)` clipped to
[-4.0, 0.0]. -/
noncomputable def odgRaw (l : ℝ) : ℝ := np_clip (-1.5 * Real.sqrt l) (-4) 0

/-- Python `round(x, 3)` (peaq.py line 222).  Mathlib `round` rounds halves
up where Python rounds halves to even; no statement below sits on a tie, so
the models agree at every value they are applied to. -/
noncomputable def round3 (x : ℝ) : ℝ := ((round (x * 1000) : ℤ) : ℝ) / 1000

/-- Python `round(x, 6)` (peaq.py line 223), same tie caveat as `round3`. -/
noncomputable def round6 (x : ℝ) : ℝ := ((round (x * 1000000) : ℤ) : ℝ) / 1000000

/-- The two numeric fields of the dict returned by `compute_peaq_odg`
(peaq.py lines 221-225); the `details` metadata is not modelled. -/
structure OdgResult where
  odg_score : ℝ
  lsd : ℝ

/-- Result of a `compute_peaq_odg` call: the returned record, or the
message of the `PEAQError` it raises. -/
inductive OdgOutcome
  | ok (r : OdgResult)
  | error (msg : String)

/-- The LSD computed by `compute_peaq_odg` (peaq.py lines 198-215): both
buffers are trimmed to the common minimum length, the short-time transform
of each is taken, and `lsdVal` is applied to the magnitude spectra.  The
transform-and-magnitude step `stftMag` (scipy `stft` followed by `np.abs`,
flattened) is an external collaborator and enters as a parameter; every
theorem below holds for all of its possible behaviours. -/
noncomputable def lsd_of (stftMag : List ℝ → List ℝ) (ref deg : List ℝ) : ℝ :=
  lsdVal (stftMag (ref.take (min ref.length deg.length)))
         (stftMag (deg.take (min ref.length deg.length)))

/-- Model of `compute_peaq_odg` (peaq.py lines 132-227) on the path
exercised by the claims: `noise_audio=None` and equal sample rates.  The
two `Path.exists` checks (lines 149-152) are the only raises in the
function; after them the code computes and returns unconditionally — there
is no emptiness check and no further raise statement. -/
noncomputable def compute_peaq_odg (stftMag : List ℝ → List ℝ)
    (refExists degExists : Bool) (ref deg : List ℝ) : OdgOutcome :=
  if refExists = false then OdgOutcome.error "Reference audio not found"
  else if degExists = false then OdgOutcome.error "Degraded audio not found"
  else OdgOutcome.ok
    ⟨round3 (odgRaw (lsd_of stftMag ref deg)), round6 (lsd_of stftMag ref deg)⟩

end Peaq

/-! ### Helper lemmas -/

theorem truncQ_bounds {a b : ℤ} {x : ℚ} (h1 : (a : ℚ) ≤ x) (h2 : x ≤ (b : ℚ)) :
    a ≤ truncQ x ∧ truncQ x ≤ b := by
  unfold truncQ
  split
  · refine ⟨Int.le_floor.mpr h1, ?_⟩
    calc ⌊x⌋ ≤ ⌊(b : ℚ)⌋ := Int.floor_mono h2
    _ = b := Int.floor_intCast b
  · refine ⟨?_, Int.ceil_le.mpr h2⟩
    calc a = ⌈(a : ℚ)⌉ := (Int.ceil_intCast a).symm
    _ ≤ ⌈x⌉ := Int.ceil_mono h1

theorem normalize_peak_length (l : List ℚ) :
    (Peaq.normalize_peak l).length = l.length := by
  simp only [Peaq.normalize_peak]
  split <;> simp

/-! ### C10 -/

/-- C10: `_float_to_int16` clamps the scaled sample to [-32768, 32767]
before the integer cast, so every output is a valid int16 with no
wraparound, and an input of exactly +1.0 maps to 32767. -/
theorem float_to_int16_clamps (x : ℚ) :
    (-32768 ≤ Pesq.float_to_int16 x ∧ Pesq.float_to_int16 x ≤ 32767) ∧
    Pesq.float_to_int16 1 = 32767 := by
  constructor
  · have h1 : ((-32768 : ℤ) : ℚ) ≤ max (-32768) (min (x * 32768) 32767) := by
      push_cast
      exact le_max_left _ _
    have h2 : max (-32768 : ℚ) (min (x * 32768) 32767) ≤ ((32767 : ℤ) : ℚ) := by
      push_cast
      exact max_le (by norm_num) (min_le_right _ _)
    exact truncQ_bounds h1 h2
  · show truncQ (max (-32768) (min ((1 : ℚ) * 32768) 32767)) = 32767
    have h1 : min ((1 : ℚ) * 32768) 32767 = 32767 := by
      rw [min_eq_right] <;> norm_num
    rw [h1, max_eq_right (by norm_num : (-32768 : ℚ) ≤ 32767)]
    unfold truncQ
    rw [if_pos (by norm_num : (0 : ℚ) ≤ 32767)]
    norm_num

/-! ### C7 -/

/-- C7 counterexample: a window-length degraded signal with a 2-sample
noise reference.  scipy shrinks the noise window to 2 samples, the fixed
`noverlap=768` then fails the "noverlap must be less than nperseg" check,
and `spectral_subtract` raises a ValueError instead of returning any
signal — refuting "for every noise-reference signal of any length, the
operation returns a time-domain signal whose sample count equals the
input". -/
theorem spectral_subtract_short_noise_cx :
    Peaq.spectral_subtract (List.replicate 1024 (0 : ℚ)) [0, 0] =
      Except.error "ValueError" ∧
    ∀ out : List ℚ, Peaq.spectral_subtract (List.replicate 1024 (0 : ℚ)) [0, 0] ≠
      Except.ok out := by
  have hg : (List.replicate 1024 (0 : ℚ)).length < Peaq.nperseg_ss ∨
      ([(0 : ℚ), 0]).length < Peaq.nperseg_ss := by
    right
    simp [Peaq.nperseg_ss]
  constructor
  · unfold Peaq.spectral_subtract
    rw [if_pos hg]
  · intro out hout
    unfold Peaq.spectral_subtract at hout
    rw [if_pos hg] at hout
    simp at hout

/-- C7 amended: when the degraded signal and the noise reference are each
at least one window (1024 samples) long, spectral subtraction returns a
signal whose sample count equals exactly that of the degraded input: the
stft/istft round trip returns `len(degraded)` plus the nonnegative frame
padding, `cleaned[:len(degraded)]` cuts it back, and peak normalization
preserves length.  For any degraded or noise signal shorter than the
window the underlying scipy calls raise a ValueError and nothing is
returned. -/
theorem spectral_subtract_length (degraded noise : List ℚ)
    (hd : Peaq.nperseg_ss ≤ degraded.length) (hn : Peaq.nperseg_ss ≤ noise.length) :
    ∃ out : List ℚ, Peaq.spectral_subtract degraded noise = Except.ok out ∧
      out.length = degraded.length := by
  refine ⟨Peaq.normalize_peak ((Peaq.istft_model degraded.length).take degraded.length),
    ?_, ?_⟩
  · unfold Peaq.spectral_subtract
    rw [if_neg (not_or.mpr ⟨not_lt.mpr hd, not_lt.mpr hn⟩)]
  · rw [normalize_peak_length, List.length_take]
    simp only [Peaq.istft_model, List.length_replicate, Peaq.istft_len_ss,
      Peaq.stft_frames_ss, Peaq.stft_pad_ss, Peaq.hop_ss, Peaq.nperseg_ss]
    omega

/-- C7 witness: a 1024-sample degraded signal and a 1500-sample noise
reference pass the window check and the returned signal has 1024
samples. -/
theorem spectral_subtract_length_witness :
    ∃ out : List ℚ, Peaq.spectral_subtract (List.replicate 1024 (0 : ℚ))
        (List.replicate 1500 (0 : ℚ)) = Except.ok out ∧
      out.length = (List.replicate 1024 (0 : ℚ)).length :=
  spectral_subtract_length (List.replicate 1024 0) (List.replicate 1500 0)
    (by rw [List.length_replicate]; norm_num [Peaq.nperseg_ss])
    (by rw [List.length_replicate]; norm_num [Peaq.nperseg_ss])

/-! ### C5 -/

/-- C5 counterexample: a 3-sample buffer resampled from 32 kHz to 16 kHz.
The code computes `int(3 * 16000 / 32000) = int(1.5) = 1` sample, while the
spec sentence "rounded to the nearest integer" gives 2, so the claimed sample
count is wrong: `int()` truncates, it does not round. -/
theorem resample_len_truncates_cx :
    Pesq.resample_num 3 32000 16000 = 1 ∧
    Pesq.resample_num_spec 3 32000 16000 = 2 ∧
    (Pesq.resample_to [0, 0, 0] 32000 16000).length = 1 := by
  have hnum : Pesq.resample_num 3 32000 16000 = 1 := by
    simp only [Pesq.resample_num, Rat.floor_natCast_div_natCast]
    decide
  refine ⟨hnum, ?_, ?_⟩
  · have hval : ((3 * 16000 : ℕ) : ℚ) / ((32000 : ℕ) : ℚ) = 3 / 2 := by
      push_cast
      norm_num
    simp only [Pesq.resample_num_spec, hval, round_eq]
    norm_num
  · simp only [Pesq.resample_to]
    rw [if_neg (by decide : ¬(32000 = 16000))]
    simp only [Pesq.scipy_resample, List.length_take, List.length_append,
      List.length_replicate, List.length_cons, List.length_nil]
    rw [show ((0 : ℕ) + 1 + 1 + 1) = 3 by rfl, hnum]
    omega

/-- C5 amended: `resample_to` is the identity when the rates match, and
otherwise returns `int(len * target / orig)` samples — the floor
(truncation) of the proportional count, not the nearest integer. -/
theorem resample_to_spec (samples : List ℚ) (o t : ℕ) :
    (o = t → Pesq.resample_to samples o t = samples) ∧
    (o ≠ t → (Pesq.resample_to samples o t).length =
      Pesq.resample_num samples.length o t) := by
  constructor
  · intro h
    simp [Pesq.resample_to, h]
  · intro h
    simp only [Pesq.resample_to, if_neg h, Pesq.scipy_resample, List.length_take,
      List.length_append, List.length_replicate]
    omega

/-- C5 witness: the identity branch at matching rates, and the length
formula at 3 samples, 32 kHz to 16 kHz. -/
theorem resample_to_spec_witness :
    Pesq.resample_to [(1 : ℚ) / 2] 8000 8000 = [(1 : ℚ) / 2] ∧
    (Pesq.resample_to [(0 : ℚ), 0, 0] 32000 16000).length =
      Pesq.resample_num ([(0 : ℚ), 0, 0]).length 32000 16000 :=
  ⟨(resample_to_spec [(1 : ℚ) / 2] 8000 8000).1 rfl,
   (resample_to_spec [(0 : ℚ), 0, 0] 32000 16000).2 (by decide)⟩

/-! ### C2 -/

/-- C2 counterexample: when the Opus encode stage raises (here a timeout,
equally a missing ffmpeg), `encode_decode_opus` propagates the exception
without any cleanup — both temporary files it created, including the
intermediate compressed file, remain on disk, contradicting "zero residual
temporary files remain on every exit path including exceptions". -/
theorem opus_timeout_leaves_files_cx :
    Codec.encode_decode_opus (Codec.PyRun.raises Codec.PyExc.timeoutExpired)
        (Codec.PyRun.completed 0) [] =
      Except.error ([Codec.TmpFile.decodedWav, Codec.TmpFile.opusCompressed],
        Codec.PyExc.timeoutExpired) ∧
    Codec.TmpFile.opusCompressed ∈
      [Codec.TmpFile.decodedWav, Codec.TmpFile.opusCompressed] ∧
    ([Codec.TmpFile.decodedWav, Codec.TmpFile.opusCompressed] : List Codec.TmpFile) ≠ [] :=
  ⟨rfl, by simp, by simp⟩

/-- C2 amended: the intermediate compressed file is deleted before return
whenever both ffmpeg invocations return (whatever their exit status), and
only the decoded WAV remains for the caller; but when either stage raises
(missing tool, timeout) the exception propagates with no cleanup and both
temporary files remain, for either codec; and in the Opus branch of
`make_webrtc_call` the decoded WAV is unlinked only when the PESQ scoring
also succeeds — a caught exception before that point leaves the decoded
WAV (and, for a pipeline exception, the intermediate too) on disk. -/
theorem codec_cleanup_paths (i j : ℤ) (e : Codec.PyExc) (dec : Codec.PyRun)
    (fs : List Codec.TmpFile) :
    Codec.encode_decode_opus (Codec.PyRun.completed i) (Codec.PyRun.completed j) fs =
      Except.ok (Codec.TmpFile.decodedWav :: fs, Codec.TmpFile.decodedWav) ∧
    Codec.encode_decode_g711 (Codec.PyRun.completed i) (Codec.PyRun.completed j) fs =
      Except.ok (Codec.TmpFile.decodedWav :: fs, Codec.TmpFile.decodedWav) ∧
    Codec.encode_decode_opus (Codec.PyRun.raises e) dec fs =
      Except.error (Codec.TmpFile.decodedWav :: Codec.TmpFile.opusCompressed :: fs, e) ∧
    Codec.encode_decode_opus (Codec.PyRun.completed i) (Codec.PyRun.raises e) fs =
      Except.error (Codec.TmpFile.decodedWav :: Codec.TmpFile.opusCompressed :: fs, e) ∧
    Codec.encode_decode_g711 (Codec.PyRun.raises e) dec fs =
      Except.error (Codec.TmpFile.decodedWav :: Codec.TmpFile.mulawCompressed :: fs, e) ∧
    Codec.encode_decode_g711 (Codec.PyRun.completed i) (Codec.PyRun.raises e) fs =
      Except.error (Codec.TmpFile.decodedWav :: Codec.TmpFile.mulawCompressed :: fs, e) ∧
    Codec.make_webrtc_call_wb (Codec.PyRun.completed i) (Codec.PyRun.completed j) false fs =
      fs ∧
    Codec.make_webrtc_call_wb (Codec.PyRun.completed i) (Codec.PyRun.completed j) true fs =
      Codec.TmpFile.decodedWav :: fs ∧
    Codec.make_webrtc_call_wb (Codec.PyRun.raises e) dec false fs =
      Codec.TmpFile.decodedWav :: Codec.TmpFile.opusCompressed :: fs :=
  ⟨rfl, rfl, rfl, rfl, rfl, rfl, rfl, rfl, rfl⟩

/-! ### C3 -/

/-- C3 counterexample: both ffmpeg stages exit with status 1 (e.g. an
unreadable input file), yet the call returns successfully with the path of
the (invalid) output WAV: without `check=True` a non-zero exit status never
surfaces as an error, let alone a `CodecPipelineError` naming the stage. -/
theorem opus_nonzero_exit_succeeds_cx :
    Codec.encode_decode_opus (Codec.PyRun.completed 1) (Codec.PyRun.completed 1) [] =
      Except.ok ([Codec.TmpFile.decodedWav], Codec.TmpFile.decodedWav) :=
  rfl

/-- C3 amended: the only failures that surface are the raw Python
exceptions of `subprocess.run` — `subprocess.TimeoutExpired` after the
30-second bound and `FileNotFoundError` for a missing tool — propagated
from whichever stage raises first; a non-zero exit status does not surface
at all; no `CodecPipelineError` type exists and nothing names the failing
stage or codec. -/
theorem codec_error_classification (enc dec : Codec.PyRun) (fs : List Codec.TmpFile) :
    Codec.errName (Codec.encode_decode_opus enc dec fs) =
      (Codec.raisedException enc).orElse (fun _ => Codec.raisedException dec) ∧
    Codec.errName (Codec.encode_decode_g711 enc dec fs) =
      (Codec.raisedException enc).orElse (fun _ => Codec.raisedException dec) ∧
    Codec.subprocess_timeout = 30 := by
  refine ⟨?_, ?_, rfl⟩ <;> cases enc <;> cases dec <;> rfl

/-! ### C4 -/

theorem wav_sample_roundtrip {k : ℤ} (h1 : -32768 ≤ k) (h2 : k ≤ 32767) :
    |((truncQ (Peaq.clip_unit ((k : ℚ) / 32768) * 32767) : ℤ) : ℚ) / 32768 -
      (k : ℚ) / 32768| ≤ 1 / 32768 := by
  have hq1 : (-32768 : ℚ) ≤ (k : ℚ) := by exact_mod_cast h1
  have hq2 : (k : ℚ) ≤ 32767 := by exact_mod_cast h2
  have hx1 : (-1 : ℚ) ≤ (k : ℚ) / 32768 := by
    rw [le_div_iff (by norm_num : (0 : ℚ) < 32768)]
    linarith
  have hx2 : (k : ℚ) / 32768 ≤ 1 := by
    rw [div_le_one (by norm_num : (0 : ℚ) < 32768)]
    linarith
  have hclip : Peaq.clip_unit ((k : ℚ) / 32768) = (k : ℚ) / 32768 := by
    unfold Peaq.clip_unit
    rw [min_eq_left hx2, max_eq_right hx1]
  rw [hclip]
  have hy : (k : ℚ) / 32768 * 32767 = (k * 32767 : ℚ) / 32768 := by ring
  rw [hy]
  have hlow : ((k - 1 : ℤ) : ℚ) ≤ (k * 32767 : ℚ) / 32768 := by
    rw [le_div_iff (by norm_num : (0 : ℚ) < 32768)]
    push_cast
    linarith
  have hhigh : (k * 32767 : ℚ) / 32768 ≤ ((k + 1 : ℤ) : ℚ) := by
    rw [div_le_iff (by norm_num : (0 : ℚ) < 32768)]
    push_cast
    linarith
  have ht := truncQ_bounds hlow hhigh
  have ht1 : ((k : ℚ) - 1) ≤ ((truncQ ((k * 32767 : ℚ) / 32768) : ℤ) : ℚ) := by
    have := ht.1
    push_cast at this ⊢
    exact_mod_cast this
  have ht2 : ((truncQ ((k * 32767 : ℚ) / 32768) : ℤ) : ℚ) ≤ (k : ℚ) + 1 := by
    have := ht.2
    push_cast at this ⊢
    exact_mod_cast this
  rw [abs_le]
  constructor
  · linarith
  · linarith

/-- C4: writing a buffer that originated from a 16-bit source as 16-bit PCM
mono WAV and loading it back reproduces every sample within 1/32768: the
write path clips (a no-op on such samples), scales by 32767 and truncates,
moving each stored integer at most one step from the original 16-bit code,
and the load path divides by 32768. -/
theorem wav_roundtrip_16bit (b : List ℚ)
    (hb : ∀ x ∈ b, ∃ k : ℤ, -32768 ≤ k ∧ k ≤ 32767 ∧ x = (k : ℚ) / 32768) :
    List.Forall₂ (fun y x => |y - x| ≤ 1 / 32768)
      (Peaq.load_wav16 (Peaq.write_wav_bytes b)) b := by
  induction b with
  | nil => simp [Peaq.load_wav16, Peaq.write_wav_bytes]
  | cons x xs ih =>
      simp only [Peaq.write_wav_bytes, Peaq.load_wav16, List.map_cons]
      refine List.Forall₂.cons ?_ ?_
      · obtain ⟨k, hk1, hk2, rfl⟩ := hb x (List.mem_cons_self x xs)
        exact wav_sample_roundtrip hk1 hk2
      · exact ih (fun y hy => hb y (List.mem_cons_of_mem x hy))

/-! ### Helper lemmas for the ODG model -/

theorem round_mono_le {x y : ℝ} (h : x ≤ y) : round x ≤ round y := by
  rw [round_eq, round_eq]
  exact Int.floor_mono (by linarith)

theorem np_clip_bounds (x : ℝ) :
    -4 ≤ Peaq.np_clip x (-4) 0 ∧ Peaq.np_clip x (-4) 0 ≤ 0 := by
  unfold Peaq.np_clip
  exact ⟨le_max_left _ _, max_le (by norm_num) (min_le_right _ _)⟩

theorem round3_bounds {x : ℝ} (h1 : -4 ≤ x) (h2 : x ≤ 0) :
    -4 ≤ Peaq.round3 x ∧ Peaq.round3 x ≤ 0 := by
  unfold Peaq.round3
  have hlo : (-4000 : ℤ) ≤ round (x * 1000) := by
    have h := round_mono_le (show ((-4000 : ℤ) : ℝ) ≤ x * 1000 by push_cast; linarith)
    rwa [round_intCast] at h
  have hhi : round (x * 1000) ≤ 0 := by
    have h := round_mono_le (show x * 1000 ≤ ((0 : ℤ) : ℝ) by push_cast; linarith)
    rwa [round_intCast] at h
  have hlo2 : (-4000 : ℝ) ≤ ((round (x * 1000) : ℤ) : ℝ) := by exact_mod_cast hlo
  have hhi2 : ((round (x * 1000) : ℤ) : ℝ) ≤ 0 := by exact_mod_cast hhi
  constructor
  · linarith
  · linarith

theorem odgRaw_zero : Peaq.odgRaw 0 = 0 := by
  unfold Peaq.odgRaw Peaq.np_clip
  rw [Real.sqrt_zero, mul_zero, min_self, max_eq_right (by norm_num : (-4 : ℝ) ≤ 0)]

theorem round3_zero : Peaq.round3 0 = 0 := by
  unfold Peaq.round3
  rw [zero_mul, round_zero]
  norm_num

theorem round6_zero : Peaq.round6 0 = 0 := by
  unfold Peaq.round6
  rw [zero_mul, round_zero]
  norm_num

theorem lsdVal_nonneg (a b : List ℝ) : 0 ≤ Peaq.lsdVal a b := by
  unfold Peaq.lsdVal
  apply div_nonneg
  · apply List.sum_nonneg
    intro x hx
    rw [List.mem_map] at hx
    obtain ⟨p, hp, rfl⟩ := hx
    exact sq_nonneg _
  · positivity

theorem sqLogDiff_zip_sum_symm (a : List ℝ) : ∀ b : List ℝ,
    ((a.zip b).map Peaq.sqLogDiff).sum = ((b.zip a).map Peaq.sqLogDiff).sum := by
  induction a with
  | nil => intro b; cases b <;> simp
  | cons x xs ih =>
      intro b
      cases b with
      | nil => simp
      | cons y ys =>
          simp only [List.zip_cons_cons, List.map_cons, List.sum_cons, ih ys]
          have h : Peaq.sqLogDiff (x, y) = Peaq.sqLogDiff (y, x) := by
            unfold Peaq.sqLogDiff
            ring
          rw [h]

theorem lsdVal_symm (a b : List ℝ) : Peaq.lsdVal a b = Peaq.lsdVal b a := by
  unfold Peaq.lsdVal
  have hlen : ((a.zip b).map Peaq.sqLogDiff).length =
      ((b.zip a).map Peaq.sqLogDiff).length := by
    simp only [List.length_map, List.length_zip]
    exact Nat.min_comm _ _
  rw [sqLogDiff_zip_sum_symm, hlen]

theorem zip_replicate_eq {α β : Type} (n : ℕ) (a : α) (b : β) :
    (List.replicate n a).zip (List.replicate n b) = List.replicate n (a, b) := by
  induction n with
  | zero => rfl
  | succ k ih => simp [List.replicate_succ, ih]

theorem lsd_one_decade (m : ℕ) :
    Peaq.lsdVal ((10 - Peaq.eps) :: List.replicate m (1 - Peaq.eps))
        ((1 - Peaq.eps) :: List.replicate m (1 - Peaq.eps)) = 1 / ((m + 1 : ℕ) : ℝ) := by
  unfold Peaq.lsdVal
  rw [List.zip_cons_cons, zip_replicate_eq]
  simp only [List.map_cons, List.map_replicate, List.sum_cons, List.length_cons,
    List.length_replicate]
  have h0 : Peaq.sqLogDiff (1 - Peaq.eps, 1 - Peaq.eps) = 0 := by
    show (Peaq.log10 ((1 - Peaq.eps) + Peaq.eps) -
      Peaq.log10 ((1 - Peaq.eps) + Peaq.eps)) ^ 2 = 0
    rw [sub_self]
    norm_num
  have h1 : Peaq.sqLogDiff (10 - Peaq.eps, 1 - Peaq.eps) = 1 := by
    show (Peaq.log10 ((10 - Peaq.eps) + Peaq.eps) -
      Peaq.log10 ((1 - Peaq.eps) + Peaq.eps)) ^ 2 = 1
    rw [show (10 : ℝ) - Peaq.eps + Peaq.eps = 10 by ring,
      show (1 : ℝ) - Peaq.eps + Peaq.eps = 1 by ring]
    unfold Peaq.log10
    rw [Real.logb_self_eq_one (by norm_num), Real.logb_one]
    norm_num
  rw [h0, h1, List.sum_replicate, smul_zero, add_zero]

/-! ### C1 -/

/-- C1: whenever `compute_peaq_odg` returns a result, its `odg_score` lies
in [-4.0, 0.0] and equals (up to the 3-decimal reporting rounding, which
preserves the interval) the clamp of `-1.5 * sqrt(lsd)` to that interval —
for every possible behaviour of the external transform. -/
theorem compute_peaq_odg_bounded (stftMag : List ℝ → List ℝ) (ref deg : List ℝ)
    (r : Peaq.OdgResult)
    (h : Peaq.compute_peaq_odg stftMag true true ref deg = Peaq.OdgOutcome.ok r) :
    (-4 ≤ r.odg_score ∧ r.odg_score ≤ 0) ∧
    r.odg_score = Peaq.round3
      (Peaq.np_clip (-1.5 * Real.sqrt (Peaq.lsd_of stftMag ref deg)) (-4) 0) := by
  unfold Peaq.compute_peaq_odg at h
  rw [if_neg (by decide), if_neg (by decide)] at h
  injection h with h2
  subst h2
  constructor
  · exact round3_bounds (np_clip_bounds _).1 (np_clip_bounds _).2
  · rfl

/-- C1 witness: a transform model returning the single magnitude
`1 - eps` for both one-sample buffers gives lsd 0 and score 0 ∈ [-4, 0]. -/
theorem compute_peaq_odg_bounded_witness :
    (-4 ≤ (Peaq.OdgResult.mk 0 0).odg_score ∧ (Peaq.OdgResult.mk 0 0).odg_score ≤ 0) ∧
    (Peaq.OdgResult.mk 0 0).odg_score = Peaq.round3
      (Peaq.np_clip (-1.5 * Real.sqrt
        (Peaq.lsd_of (fun _ => [1 - Peaq.eps]) [0] [0])) (-4) 0) :=
  compute_peaq_odg_bounded (fun _ => [1 - Peaq.eps]) [0] [0] ⟨0, 0⟩ (by
    have hl : Peaq.lsd_of (fun _ => [1 - Peaq.eps]) [0] [0] = 0 := by
      unfold Peaq.lsd_of Peaq.lsdVal
      simp [Peaq.sqLogDiff, sub_self]
    unfold Peaq.compute_peaq_odg
    rw [if_neg (by decide), if_neg (by decide), hl, odgRaw_zero, round3_zero, round6_zero])

/-! ### C6 -/

/-- C6 counterexample: magnitude spectra of 4,000,000 bins that differ in a
single bin by one decade give the exact LSD 1/4000000 = 2.5e-7.  The code
reports `lsd = round(2.5e-7, 6) = 0.0` but `odg_score =
round(-1.5*sqrt(2.5e-7), 3) = round(-0.00075, 3) = -0.001 ≠ 0.0`, so "the
reported odg_score equals 0.0 iff the reported lsd equals 0.0" fails. -/
theorem odg_report_zero_mismatch_cx :
    Peaq.lsdVal ((10 - Peaq.eps) :: List.replicate 3999999 (1 - Peaq.eps))
        ((1 - Peaq.eps) :: List.replicate 3999999 (1 - Peaq.eps)) = 1 / 4000000 ∧
    Peaq.round6 (1 / 4000000 : ℝ) = 0 ∧
    Peaq.round3 (Peaq.odgRaw (1 / 4000000 : ℝ)) = -(1 / 1000) ∧
    (-(1 / 1000) : ℝ) ≠ 0 := by
  refine ⟨?_, ?_, ?_, by norm_num⟩
  · rw [lsd_one_decade 3999999]
    norm_num
  · unfold Peaq.round6
    rw [show (1 / 4000000 : ℝ) * 1000000 = 1 / 4 by norm_num, round_eq,
      show (1 / 4 : ℝ) + 1 / 2 = 3 / 4 by norm_num]
    have hf : ⌊(3 / 4 : ℝ)⌋ = 0 := by
      rw [Int.floor_eq_zero_iff]
      constructor <;> norm_num
    rw [hf]
    norm_num
  · have hsqrt : Real.sqrt (1 / 4000000 : ℝ) = 1 / 2000 := by
      rw [show (1 / 4000000 : ℝ) = (1 / 2000) ^ 2 by norm_num]
      exact Real.sqrt_sq (by norm_num)
    unfold Peaq.odgRaw Peaq.np_clip
    rw [hsqrt, show (-1.5 : ℝ) * (1 / 2000) = -(3 / 4000) by norm_num,
      min_eq_left (by norm_num : (-(3 / 4000) : ℝ) ≤ 0),
      max_eq_right (by norm_num : (-4 : ℝ) ≤ -(3 / 4000))]
    unfold Peaq.round3
    rw [show (-(3 / 4000) : ℝ) * 1000 = -(3 / 4) by norm_num, round_eq,
      show (-(3 / 4) : ℝ) + 1 / 2 = -(1 / 4) by norm_num]
    have hf : ⌊(-(1 / 4) : ℝ)⌋ = -1 := by
      rw [Int.floor_eq_iff]
      constructor <;> norm_num
    rw [hf]
    norm_num

/-- C6 amended: for the exact (pre-rounding) quantities the claim holds:
the clamped score is 0 iff the LSD is 0, and a nonzero LSD forces a
strictly negative score.  Only after the reporting roundings (`round(lsd,
6)`, `round(odg, 3)`) can the equivalence fail, as the counterexample
shows. -/
theorem odg_zero_iff_lsd_zero (magRef magDeg : List ℝ) :
    (Peaq.odgRaw (Peaq.lsdVal magRef magDeg) = 0 ↔ Peaq.lsdVal magRef magDeg = 0) ∧
    (Peaq.lsdVal magRef magDeg ≠ 0 → Peaq.odgRaw (Peaq.lsdVal magRef magDeg) < 0) := by
  have hl0 : 0 ≤ Peaq.lsdVal magRef magDeg := lsdVal_nonneg _ _
  have hsq : 0 ≤ Real.sqrt (Peaq.lsdVal magRef magDeg) := Real.sqrt_nonneg _
  have hmin : min (-1.5 * Real.sqrt (Peaq.lsdVal magRef magDeg)) 0 =
      -1.5 * Real.sqrt (Peaq.lsdVal magRef magDeg) := min_eq_left (by nlinarith)
  constructor
  · constructor
    · intro h
      unfold Peaq.odgRaw Peaq.np_clip at h
      rw [hmin] at h
      rcases max_choice (-4 : ℝ) (-1.5 * Real.sqrt (Peaq.lsdVal magRef magDeg)) with hc | hc
      · rw [hc] at h
        norm_num at h
      · rw [hc] at h
        have hs0 : Real.sqrt (Peaq.lsdVal magRef magDeg) = 0 := by linarith
        exact (Real.sqrt_eq_zero hl0).mp hs0
    · intro h
      rw [h]
      exact odgRaw_zero
  · intro h
    have hpos : 0 < Peaq.lsdVal magRef magDeg := lt_of_le_of_ne hl0 (Ne.symm h)
    have hs : 0 < Real.sqrt (Peaq.lsdVal magRef magDeg) := Real.sqrt_pos.mpr hpos
    unfold Peaq.odgRaw Peaq.np_clip
    rw [hmin]
    exact max_lt (by norm_num) (by nlinarith)

/-- C6 witness: spectra [10 - eps] and [1 - eps] have LSD 1 ≠ 0, and the
amended theorem yields a strictly negative clamped score there. -/
theorem odg_zero_iff_lsd_zero_witness :
    Peaq.odgRaw (Peaq.lsdVal [10 - Peaq.eps] [1 - Peaq.eps]) < 0 :=
  (odg_zero_iff_lsd_zero [10 - Peaq.eps] [1 - Peaq.eps]).2 (by
    have h1 : Peaq.lsdVal [10 - Peaq.eps] [1 - Peaq.eps] = 1 := by
      unfold Peaq.lsdVal
      simp only [List.zip_cons_cons, List.zip_nil_right, List.map_cons, List.map_nil,
        List.sum_cons, List.sum_nil, List.length_cons, List.length_nil]
      have h : Peaq.sqLogDiff (10 - Peaq.eps, 1 - Peaq.eps) = 1 := by
        show (Peaq.log10 ((10 - Peaq.eps) + Peaq.eps) -
          Peaq.log10 ((1 - Peaq.eps) + Peaq.eps)) ^ 2 = 1
        rw [show (10 : ℝ) - Peaq.eps + Peaq.eps = 10 by ring,
          show (1 : ℝ) - Peaq.eps + Peaq.eps = 1 by ring]
        unfold Peaq.log10
        rw [Real.logb_self_eq_one (by norm_num), Real.logb_one]
        norm_num
      rw [h]
      norm_num
    rw [h1]
    norm_num)

/-! ### C8 -/

/-- C8 counterexample: both WAV files exist but hold zero samples, so both
buffers are empty after alignment.  `compute_peaq_odg` performs no
emptiness check and raises nothing: it returns a numeric result (here the
empty-spectra model; NumPy produces NaN fields for the same input), not a
`ScoringError` — indeed no `ScoringError` exists anywhere in the code. -/
theorem compute_peaq_odg_empty_ok_cx :
    Peaq.compute_peaq_odg (fun _ => []) true true [] [] =
      Peaq.OdgOutcome.ok ⟨0, 0⟩ := by
  have hl : Peaq.lsd_of (fun _ => []) [] [] = 0 := by
    unfold Peaq.lsd_of Peaq.lsdVal
    simp
  unfold Peaq.compute_peaq_odg
  rw [if_neg (by decide), if_neg (by decide), hl, odgRaw_zero, round3_zero, round6_zero]

/-- C8 amended: after the two file-existence checks, `compute_peaq_odg`
has no further error exit: for every transform behaviour and all input
buffers, including empty ones, it returns a result record. -/
theorem compute_peaq_odg_never_scoring_error (stftMag : List ℝ → List ℝ)
    (ref deg : List ℝ) :
    Peaq.compute_peaq_odg stftMag true true ref deg =
      Peaq.OdgOutcome.ok ⟨Peaq.round3 (Peaq.odgRaw (Peaq.lsd_of stftMag ref deg)),
        Peaq.round6 (Peaq.lsd_of stftMag ref deg)⟩ := rfl

/-! ### C9 -/

/-- C9: the LSD term is symmetric in reference and degraded: the common
trim length is symmetric and the mean squared log-magnitude difference is
unchanged under swapping, both before and after the 6-decimal reporting
rounding. -/
theorem lsd_symmetric (stftMag : List ℝ → List ℝ) (ref deg : List ℝ) :
    Peaq.lsd_of stftMag ref deg = Peaq.lsd_of stftMag deg ref ∧
    Peaq.round6 (Peaq.lsd_of stftMag ref deg) =
      Peaq.round6 (Peaq.lsd_of stftMag deg ref) := by
  have h : Peaq.lsd_of stftMag ref deg = Peaq.lsd_of stftMag deg ref := by
    unfold Peaq.lsd_of
    rw [Nat.min_comm deg.length ref.length]
    exact lsdVal_symm _ _
  exact ⟨h, by rw [h]⟩

/-- C4 witness: round trip of the single-sample buffer [1/2] (16-bit code
16384): the stored integer is 16383 and the reloaded sample differs from
1/2 by exactly 1/32768. -/
theorem wav_roundtrip_16bit_witness :
    List.Forall₂ (fun y x => |y - x| ≤ 1 / 32768)
      (Peaq.load_wav16 (Peaq.write_wav_bytes [(1 : ℚ) / 2])) [(1 : ℚ) / 2] :=
  wav_roundtrip_16bit [(1 : ℚ) / 2]
    (by
      intro x hx
      rw [List.mem_singleton] at hx
      exact ⟨16384, by norm_num, by norm_num, by rw [hx]; norm_num⟩)
